import Mathlib

/-!
Verification of the hotp-go repository: an RFC 4226 HOTP implementation.

Shallow embedding conventions:
* Go byte strings (secrets, rendered codes, digests) are `List Nat` with each
  element a byte value below 256.
* Machine words are `Nat` reduced modulo `2 ^ 32`, `2 ^ 64` as the Go code does.
* Go `uint64` counters are `Nat` values reduced modulo `2 ^ 64` at the points
  where the Go type system performs the conversion.
* Fallible Go code (slice indexing that can panic, the explicit panic branch,
  error returns) is embedded with `Option` / `Except`.

The HMAC hash primitives (`crypto/sha1`, `crypto/sha256`, `crypto/sha512`)
are not part of the repository; they are embedded from FIPS 180-4 so that the
repository functions built on them are executable.
-/

/-- Reduce to a 32-bit word, as Go `uint32`/`int32` bit patterns. -/
def w32 (x : Nat) : Nat := x % 4294967296

/-- Reduce to a 64-bit word, as Go `uint64` bit patterns. -/
def w64 (x : Nat) : Nat := x % 18446744073709551616

/-- Rotate a 32-bit word left by `n` bits. -/
def rotl32 (n x : Nat) : Nat := (x % 4294967296) * 2 ^ n % 4294967296 + x % 4294967296 / 2 ^ (32 - n)

/-- Rotate a 32-bit word right by `n` bits. -/
def rotr32 (n x : Nat) : Nat := x % 4294967296 / 2 ^ n + x % 4294967296 % 2 ^ n * 2 ^ (32 - n)

/-- Rotate a 64-bit word right by `n` bits. -/
def rotr64 (n x : Nat) : Nat :=
  x % 18446744073709551616 / 2 ^ n + x % 18446744073709551616 % 2 ^ n * 2 ^ (64 - n)

/-- Big-endian byte serialization of `n` into exactly `k` bytes (low `8 * k` bits). -/
def beBytes : Nat → Nat → List Nat
  | 0, _ => []
  | k + 1, n => beBytes k (n / 256) ++ [n % 256]

/-- `binary.BigEndian.PutUint64`: 8-byte big-endian serialization of a `uint64`. -/
def be64 (n : Nat) : List Nat := beBytes 8 n

/-- Combine bytes into big-endian 32-bit words (4 bytes each). -/
def bytesToWords32 : List Nat → List Nat
  | a :: b :: c :: d :: rest => (a * 16777216 + b * 65536 + c * 256 + d) :: bytesToWords32 rest
  | _ => []

/-- Combine bytes into big-endian 64-bit words (8 bytes each). -/
def bytesToWords64 : List Nat → List Nat
  | a :: b :: c :: d :: e :: f :: g :: h :: rest =>
      (a * 72057594037927936 + b * 281474976710656 + c * 1099511627776 + d * 4294967296 +
        e * 16777216 + f * 65536 + g * 256 + h) :: bytesToWords64 rest
  | _ => []

/-- Serialize each word as `k` big-endian bytes. -/
def wordsToBytes (k : Nat) : List Nat → List Nat
  | [] => []
  | w :: ws => beBytes k w ++ wordsToBytes k ws

/-- FIPS 180-4 message padding: append `0x80`, zeros, then the bit length in a
big-endian field of `lenBytes` bytes, reaching a multiple of `blockSize` bytes. -/
def padMsg (blockSize lenBytes : Nat) (msg : List Nat) : List Nat :=
  let l := msg.length
  let zeros := (blockSize - (l + 1 + lenBytes) % blockSize) % blockSize
  msg ++ 128 :: (List.replicate zeros 0 ++ beBytes lenBytes (8 * l))

/-- Split into chunks of `B` bytes; the fuel argument is the list length. -/
def chunksGo (B : Nat) : Nat → List Nat → List (List Nat)
  | 0, _ => []
  | _ + 1, [] => []
  | f + 1, x :: xs => (x :: xs).take B :: chunksGo B f ((x :: xs).drop B)

/-- Split a byte list into consecutive blocks of `B` bytes. -/
def chunks (B : Nat) (l : List Nat) : List (List Nat) := chunksGo B l.length l

/-! ### SHA-1 (FIPS 180-4) -/

/-- SHA-1 message schedule step: extend 16 words to 80, accumulator reversed
(newest word first), so `W (t - 3)` is at index 2, …, `W (t - 16)` at index 15. -/
def sha1SchedGo : Nat → List Nat → List Nat
  | 0, acc => acc
  | n + 1, acc =>
      sha1SchedGo n
        (rotl32 1 (acc.getD 2 0 ^^^ acc.getD 7 0 ^^^ acc.getD 13 0 ^^^ acc.getD 15 0) :: acc)

/-- SHA-1 message schedule: 80 words from a 16-word block. -/
def sha1Sched (ws : List Nat) : List Nat := (sha1SchedGo 64 ws.reverse).reverse

/-- SHA-1 round function, by round group. -/
def sha1F (t b c d : Nat) : Nat :=
  if t < 20 then b &&& c ||| (4294967295 ^^^ b) &&& d
  else if t < 40 then b ^^^ c ^^^ d
  else if t < 60 then b &&& c ||| b &&& d ||| c &&& d
  else b ^^^ c ^^^ d

/-- SHA-1 round constants, by round group. -/
def sha1K (t : Nat) : Nat :=
  if t < 20 then 0x5a827999
  else if t < 40 then 0x6ed9eba1
  else if t < 60 then 0x8f1bbcdc
  else 0xca62c1d6

/-- SHA-1 compression rounds over the message schedule. -/
def sha1Rounds : Nat → List Nat → Nat × Nat × Nat × Nat × Nat → Nat × Nat × Nat × Nat × Nat
  | _, [], st => st
  | t, w :: ws, (a, b, c, d, e) =>
      sha1Rounds (t + 1) ws (w32 (rotl32 5 a + sha1F t b c d + e + sha1K t + w), a, rotl32 30 b, c, d)

/-- SHA-1 single-block compression. -/
def sha1Block (st : Nat × Nat × Nat × Nat × Nat) (block : List Nat) :
    Nat × Nat × Nat × Nat × Nat :=
  match sha1Rounds 0 (sha1Sched (bytesToWords32 block)) st, st with
  | (a, b, c, d, e), (h0, h1, h2, h3, h4) =>
      (w32 (h0 + a), w32 (h1 + b), w32 (h2 + c), w32 (h3 + d), w32 (h4 + e))

/-- Render the final SHA-1 state as a 20-byte digest. -/
def sha1Out (st : Nat × Nat × Nat × Nat × Nat) : List Nat :=
  wordsToBytes 4 [st.1, st.2.1, st.2.2.1, st.2.2.2.1, st.2.2.2.2]

/-- SHA-1 of a byte string. -/
def sha1 (msg : List Nat) : List Nat :=
  sha1Out ((chunks 64 (padMsg 64 8 msg)).foldl sha1Block
    (0x67452301, 0xefcdab89, 0x98badcfe, 0x10325476, 0xc3d2e1f0))

/-! ### SHA-256 (FIPS 180-4)

FIPS 180-4 defines the SHA-2 round constants and initial hash values as the
leading bits of the fractional parts of the cube and square roots of the
first primes, so they are computed here from those definitions (by integer
root bisection) rather than transcribed as tables. -/

/-- The first 80 primes, whose roots seed the SHA-2 constants. -/
def primes80 : List Nat :=
  [2, 3, 5, 7, 11, 13, 17, 19, 23, 29, 31, 37, 41, 43, 47, 53, 59, 61, 67, 71,
   73, 79, 83, 89, 97, 101, 103, 107, 109, 113, 127, 131, 137, 139, 149, 151,
   157, 163, 167, 173, 179, 181, 191, 193, 197, 199, 211, 223, 227, 229, 233,
   239, 241, 251, 257, 263, 269, 271, 277, 281, 283, 293, 307, 311, 313, 317,
   331, 337, 347, 349, 353, 359, 367, 373, 379, 383, 389, 397, 401, 409]

/-- Bisection step for integer square roots, maintaining
`lo ^ 2 ≤ n < hi ^ 2`. -/
def isqrtGo (n : Nat) : Nat → Nat → Nat → Nat
  | 0, lo, _ => lo
  | f + 1, lo, hi =>
      if hi ≤ lo + 1 then lo
      else
        let m := (lo + hi) / 2
        if m * m ≤ n then isqrtGo n f m hi else isqrtGo n f lo m

/-- Integer square root (floor); 256 bisection steps cover all inputs used. -/
def isqrt (n : Nat) : Nat := isqrtGo n 256 0 (n + 1)

/-- Bisection step for integer cube roots, maintaining `lo ^ 3 ≤ n < hi ^ 3`. -/
def icbrtGo (n : Nat) : Nat → Nat → Nat → Nat
  | 0, lo, _ => lo
  | f + 1, lo, hi =>
      if hi ≤ lo + 1 then lo
      else
        let m := (lo + hi) / 2
        if m * m * m ≤ n then icbrtGo n f m hi else icbrtGo n f lo m

/-- Integer cube root (floor); 256 bisection steps cover all inputs used. -/
def icbrt (n : Nat) : Nat := icbrtGo n 256 0 (n + 1)

/-- First 32 bits of the fractional part of the square root of `p`. -/
def sqrtFrac32 (p : Nat) : Nat := isqrt (p * 2 ^ 64) % 2 ^ 32

/-- First 64 bits of the fractional part of the square root of `p`. -/
def sqrtFrac64 (p : Nat) : Nat := isqrt (p * 2 ^ 128) % 2 ^ 64

/-- First 32 bits of the fractional part of the cube root of `p`. -/
def cbrtFrac32 (p : Nat) : Nat := icbrt (p * 2 ^ 96) % 2 ^ 32

/-- First 64 bits of the fractional part of the cube root of `p`. -/
def cbrtFrac64 (p : Nat) : Nat := icbrt (p * 2 ^ 192) % 2 ^ 64

/-- SHA-256 round constants: fractional cube roots of the first 64 primes. -/
def sha256K : List Nat := (primes80.take 64).map cbrtFrac32

/-- SHA-256 small sigma 0 (schedule). -/
def ssig256_0 (x : Nat) : Nat := rotr32 7 x ^^^ rotr32 18 x ^^^ x % 4294967296 / 2 ^ 3

/-- SHA-256 small sigma 1 (schedule). -/
def ssig256_1 (x : Nat) : Nat := rotr32 17 x ^^^ rotr32 19 x ^^^ x % 4294967296 / 2 ^ 10

/-- SHA-256 big sigma 0. -/
def bsig256_0 (x : Nat) : Nat := rotr32 2 x ^^^ rotr32 13 x ^^^ rotr32 22 x

/-- SHA-256 big sigma 1. -/
def bsig256_1 (x : Nat) : Nat := rotr32 6 x ^^^ rotr32 11 x ^^^ rotr32 25 x

/-- SHA-2 choice function over 32-bit words. -/
def ch32 (e f g : Nat) : Nat := e &&& f ^^^ (4294967295 ^^^ e) &&& g

/-- SHA-2 majority function. -/
def maj (a b c : Nat) : Nat := a &&& b ^^^ a &&& c ^^^ b &&& c

/-- SHA-256 message schedule step: extend 16 words to 64, accumulator reversed,
so `W (t - 2)` is at index 1, `W (t - 7)` at 6, `W (t - 15)` at 14, `W (t - 16)` at 15. -/
def sha256SchedGo : Nat → List Nat → List Nat
  | 0, acc => acc
  | n + 1, acc =>
      sha256SchedGo n
        (w32 (ssig256_1 (acc.getD 1 0) + acc.getD 6 0 + ssig256_0 (acc.getD 14 0) +
          acc.getD 15 0) :: acc)

/-- SHA-256 message schedule: 64 words from a 16-word block. -/
def sha256Sched (ws : List Nat) : List Nat := (sha256SchedGo 48 ws.reverse).reverse

/-- 8-word SHA-2 state. -/
abbrev Sha2State := Nat × Nat × Nat × Nat × Nat × Nat × Nat × Nat

/-- SHA-256 compression rounds over paired round constants and schedule words. -/
def sha256Rounds : List Nat → List Nat → Sha2State → Sha2State
  | k :: ks, w :: ws, (a, b, c, d, e, f, g, h) =>
      let t1 := w32 (h + bsig256_1 e + ch32 e f g + k + w)
      let t2 := w32 (bsig256_0 a + maj a b c)
      sha256Rounds ks ws (w32 (t1 + t2), a, b, c, w32 (d + t1), e, f, g)
  | _, _, st => st

/-- SHA-256 single-block compression. -/
def sha256Block (st : Sha2State) (block : List Nat) : Sha2State :=
  match sha256Rounds sha256K (sha256Sched (bytesToWords32 block)) st, st with
  | (a, b, c, d, e, f, g, h), (h0, h1, h2, h3, h4, h5, h6, h7) =>
      (w32 (h0 + a), w32 (h1 + b), w32 (h2 + c), w32 (h3 + d),
       w32 (h4 + e), w32 (h5 + f), w32 (h6 + g), w32 (h7 + h))

/-- Render an 8-word SHA-2 state as bytes, `k` bytes per word. -/
def sha2Out (k : Nat) (st : Sha2State) : List Nat :=
  wordsToBytes k [st.1, st.2.1, st.2.2.1, st.2.2.2.1, st.2.2.2.2.1, st.2.2.2.2.2.1,
    st.2.2.2.2.2.2.1, st.2.2.2.2.2.2.2]

/-- SHA-256 of a byte string; the initial hash value is the fractional square
roots of the first 8 primes. -/
def sha256 (msg : List Nat) : List Nat :=
  sha2Out 4 ((chunks 64 (padMsg 64 8 msg)).foldl sha256Block
    (sqrtFrac32 2, sqrtFrac32 3, sqrtFrac32 5, sqrtFrac32 7,
      sqrtFrac32 11, sqrtFrac32 13, sqrtFrac32 17, sqrtFrac32 19))

/-! ### SHA-512 (FIPS 180-4) -/

/-- SHA-512 round constants: fractional cube roots of the first 80 primes. -/
def sha512K : List Nat := primes80.map cbrtFrac64

/-- SHA-512 small sigma 0 (schedule). -/
def ssig512_0 (x : Nat) : Nat :=
  rotr64 1 x ^^^ rotr64 8 x ^^^ x % 18446744073709551616 / 2 ^ 7

/-- SHA-512 small sigma 1 (schedule). -/
def ssig512_1 (x : Nat) : Nat :=
  rotr64 19 x ^^^ rotr64 61 x ^^^ x % 18446744073709551616 / 2 ^ 6

/-- SHA-512 big sigma 0. -/
def bsig512_0 (x : Nat) : Nat := rotr64 28 x ^^^ rotr64 34 x ^^^ rotr64 39 x

/-- SHA-512 big sigma 1. -/
def bsig512_1 (x : Nat) : Nat := rotr64 14 x ^^^ rotr64 18 x ^^^ rotr64 41 x

/-- SHA-2 choice function over 64-bit words. -/
def ch64 (e f g : Nat) : Nat := e &&& f ^^^ (18446744073709551615 ^^^ e) &&& g

/-- SHA-512 message schedule step, accumulator reversed as in `sha256SchedGo`. -/
def sha512SchedGo : Nat → List Nat → List Nat
  | 0, acc => acc
  | n + 1, acc =>
      sha512SchedGo n
        (w64 (ssig512_1 (acc.getD 1 0) + acc.getD 6 0 + ssig512_0 (acc.getD 14 0) +
          acc.getD 15 0) :: acc)

/-- SHA-512 message schedule: 80 words from a 16-word block. -/
def sha512Sched (ws : List Nat) : List Nat := (sha512SchedGo 64 ws.reverse).reverse

/-- SHA-512 compression rounds over paired round constants and schedule words. -/
def sha512Rounds : List Nat → List Nat → Sha2State → Sha2State
  | k :: ks, w :: ws, (a, b, c, d, e, f, g, h) =>
      let t1 := w64 (h + bsig512_1 e + ch64 e f g + k + w)
      let t2 := w64 (bsig512_0 a + maj a b c)
      sha512Rounds ks ws (w64 (t1 + t2), a, b, c, w64 (d + t1), e, f, g)
  | _, _, st => st

/-- SHA-512 single-block compression. -/
def sha512Block (st : Sha2State) (block : List Nat) : Sha2State :=
  match sha512Rounds sha512K (sha512Sched (bytesToWords64 block)) st, st with
  | (a, b, c, d, e, f, g, h), (h0, h1, h2, h3, h4, h5, h6, h7) =>
      (w64 (h0 + a), w64 (h1 + b), w64 (h2 + c), w64 (h3 + d),
       w64 (h4 + e), w64 (h5 + f), w64 (h6 + g), w64 (h7 + h))

/-- SHA-512 of a byte string; the initial hash value is the fractional square
roots of the first 8 primes. -/
def sha512 (msg : List Nat) : List Nat :=
  sha2Out 8 ((chunks 128 (padMsg 128 16 msg)).foldl sha512Block
    (sqrtFrac64 2, sqrtFrac64 3, sqrtFrac64 5, sqrtFrac64 7,
      sqrtFrac64 11, sqrtFrac64 13, sqrtFrac64 17, sqrtFrac64 19))

/-! ### HMAC (`crypto/hmac`, RFC 2104) -/

/-- A keyed-hash constructor as the Go code passes around: block size, output
length and the underlying hash function, mirroring Go `hash.Hash` metadata. -/
structure HashAlg where
  blockSize : Nat
  outLen : Nat
  hash : List Nat → List Nat

/-- `crypto/sha1` as a `HashAlg`. -/
def sha1Alg : HashAlg := ⟨64, 20, sha1⟩

/-- `crypto/sha256` as a `HashAlg`. -/
def sha256Alg : HashAlg := ⟨64, 32, sha256⟩

/-- `crypto/sha512` as a `HashAlg`. -/
def sha512Alg : HashAlg := ⟨128, 64, sha512⟩

/-- HMAC per RFC 2104 / Go `crypto/hmac`: pad (or hash) the key to the block
size, then nest the hash over inner and outer paddings. -/
def hmacBytes (alg : HashAlg) (key msg : List Nat) : List Nat :=
  let k0 := if alg.blockSize < key.length then alg.hash key else key
  let kp := k0 ++ List.replicate (alg.blockSize - k0.length) 0
  alg.hash ((kp.map fun b => b ^^^ 0x5c) ++ alg.hash ((kp.map fun b => b ^^^ 0x36) ++ msg))

/-! ### The repository: `hotp` package (`src/unnamed/part_000`) -/

/-- ASCII bytes of a decimal digit. -/
def digitByte (n : Nat) : Nat := 48 + n

/-- Decimal rendering of a natural number as ASCII bytes, most significant
digit first (what `fmt.Sprintf` with the `d` verb emits for non-negative
values); the fuel argument dominates the number. -/
def decReprGo : Nat → Nat → List Nat
  | 0, _ => []
  | f + 1, n => if n < 10 then [digitByte n] else decReprGo f (n / 10) ++ [digitByte (n % 10)]

/-- Decimal rendering of a natural number as ASCII bytes. -/
def decRepr (n : Nat) : List Nat := decReprGo (n + 1) n

/-- Left-pad with ASCII zeros to width `w` (no truncation when already wider). -/
def zeroPad (w : Nat) (s : List Nat) : List Nat := List.replicate (w - s.length) 48 ++ s

/-- `formatCode`: Go `fmt.Sprintf` of an `int` with a zero-padded width of
`digits`; a negative value carries a leading minus sign inside the width. -/
def formatCode (code : Int) (digits : Nat) : List Nat :=
  if code < 0 then 45 :: zeroPad (digits - 1) (decRepr code.natAbs)
  else zeroPad digits (decRepr code.natAbs)

/-- The offset the code extracts on line 64 of the source: low 4 bits of byte
index 19 of the first 20 digest bytes (`offsetBits := hash[0 : 19+1]`,
`offset := int(offsetBits[19]) & 0xf`). -/
def truncOffset (secret : List Nat) (counter : Nat) (hasher : HashAlg) : Nat :=
  ((hmacBytes hasher secret (be64 (counter % 18446744073709551616))).take 20).getD 19 0 &&& 0xf

/-- The 31-bit value the code assembles from the 4 bytes at the offset:
`P := hash[offset : offset+3+1]`, sign bit of `P[0]` cleared. -/
def truncValue (secret : List Nat) (counter : Nat) (hasher : HashAlg) : Nat :=
  let digest := hmacBytes hasher secret (be64 (counter % 18446744073709551616))
  let P := (digest.drop (truncOffset secret counter hasher)).take 4
  (P.getD 0 0 &&& 0x7f) <<< 24 ||| (P.getD 1 0 &&& 0xff) <<< 16 |||
    (P.getD 2 0 &&& 0xff) <<< 8 ||| P.getD 3 0 &&& 0xff

/-- `dynamicTruncate`: HMAC the 8-byte big-endian counter under the secret and
apply RFC 4226 dynamic truncation. `none` embeds the fatal exits: the
`hash[0 : 19+1]` and `hash[offset : offset+3+1]` slice panics when the digest
is too short, and the explicit panic branch on an offset outside `[0, 15]`. -/
def dynamicTruncate (secret : List Nat) (counter : Nat) (hasher : HashAlg) : Option Nat :=
  if 20 ≤ (hmacBytes hasher secret (be64 (counter % 18446744073709551616))).length then
    if 15 < truncOffset secret counter hasher then none
    else if truncOffset secret counter hasher + 4 ≤
        (hmacBytes hasher secret (be64 (counter % 18446744073709551616))).length then
      some (truncValue secret counter hasher)
    else none
  else none

/-- `CalculateCode`: truncate, reduce modulo `10 ^ digits` (the Go
`Sbits % int32(math.Pow10(digits))`, exact for `digits ≤ 9`), format. -/
def CalculateCode (secret : List Nat) (counter : Nat) (digits : Nat) (hasher : HashAlg) :
    Option (List Nat) :=
  (dynamicTruncate secret counter hasher).map fun sbits =>
    formatCode (Int.ofNat (sbits % 10 ^ digits)) digits

/-- Package-level `Validate`: compare the expected code string with the
zero-padded rendering of the submitted integer. -/
def pkgValidate (secret : List Nat) (counter : Nat) (digits : Nat) (code : Int)
    (hasher : HashAlg) : Option Bool :=
  (CalculateCode secret counter digits hasher).map fun correct =>
    correct = formatCode code digits

/-- The session state (`type Hotp struct`): secret, `uint64` counter, digit
count, look-ahead window (a Go `int`, hence `Int`), the algorithm identifier
string and the keyed-hash constructor. -/
structure Hotp where
  secret : List Nat
  counter : Nat
  digits : Nat
  lookAheadWindow : Int
  hashFunc : String
  hasher : HashAlg

/-- `CreateHotp`: defaults to SHA-1 and a zero look-ahead window. -/
def CreateHotp (secret : List Nat) (counter : Nat) (digits : Nat) : Hotp :=
  ⟨secret, counter % 18446744073709551616, digits, 0, "sha1", sha1Alg⟩

/-- `maxLookAheadSize`. -/
def maxLookAheadSize : Int := 10

/-- `SetLookAheadWindow`: rejects sizes above `maxLookAheadSize`, otherwise
stores the size. There is no lower bound check in the code. -/
def SetLookAheadWindow (hotp : Hotp) (size : Int) : Except String Hotp :=
  if maxLookAheadSize < size then
    .error "size cannot be greater than 10 for look ahead window"
  else
    .ok { hotp with lookAheadWindow := size }

/-- `GetCounter`. -/
def GetCounter (hotp : Hotp) : Nat := hotp.counter

/-- `SetHashFunc`: switch on the algorithm identifier, updating the identifier
and the keyed-hash constructor together, or reject unknown identifiers. -/
def SetHashFunc (hotp : Hotp) (hashFunc : String) : Except String Hotp :=
  if hashFunc = "sha1" then .ok { hotp with hashFunc := "sha1", hasher := sha1Alg }
  else if hashFunc = "sha256" then .ok { hotp with hashFunc := "sha256", hasher := sha256Alg }
  else if hashFunc = "sha512" then .ok { hotp with hashFunc := "sha512", hasher := sha512Alg }
  else .error "hashing function not implemtented"

/-- `IncrementCounter` (`uint64` wrap-around). -/
def IncrementCounter (hotp : Hotp) : Hotp :=
  { hotp with counter := (hotp.counter + 1) % 18446744073709551616 }

/-- `SetCounter`. -/
def SetCounter (hotp : Hotp) (counter : Nat) : Hotp :=
  { hotp with counter := counter % 18446744073709551616 }

/-- Go conversion `uint64(n)` of a (possibly negative) `int`. -/
def uint64OfInt (n : Int) : Nat := (n % 18446744073709551616).toNat

/-- The look-ahead loop of the method `Validate`: probe candidate counters
`counter + i` for `i = firstIdx, firstIdx + 1, …` ascending, `remaining` probes
in total, stopping at the first match. Returns the matched increment, `none`
inside `some` when no probe matches, and outer `none` when the underlying
package `Validate` fails. -/
def validateScan (secret : List Nat) (digits : Nat) (code : Int) (hasher : HashAlg)
    (counter : Nat) : Nat → Nat → Option (Option Nat)
  | _, 0 => some none
  | firstIdx, remaining + 1 =>
      match pkgValidate secret ((counter + firstIdx) % 18446744073709551616) digits code hasher with
      | none => none
      | some true => some (some firstIdx)
      | some false => validateScan secret digits code hasher counter (firstIdx + 1) remaining

/-- The method `Validate`: direct match advances the counter by one; otherwise,
with a non-zero window, probe `counter + 1 .. counter + uint64(window)` in
ascending order and on the first match move the counter onto the matched
candidate (not one past it). Failure leaves the session untouched. -/
def Hotp.Validate (hotp : Hotp) (code : Int) : Option (Bool × Hotp) :=
  match pkgValidate hotp.secret hotp.counter hotp.digits code hotp.hasher with
  | none => none
  | some true => some (true, IncrementCounter hotp)
  | some false =>
      if hotp.lookAheadWindow = 0 then some (false, hotp)
      else
        match validateScan hotp.secret hotp.digits code hotp.hasher hotp.counter 1
            (uint64OfInt hotp.lookAheadWindow) with
        | none => none
        | some (some i) =>
            some (true, { hotp with counter := (hotp.counter + i) % 18446744073709551616 })
        | some none => some (false, hotp)

/-- The method `Calculate`. -/
def Hotp.Calculate (hotp : Hotp) : Option (List Nat) :=
  CalculateCode hotp.secret hotp.counter hotp.digits hotp.hasher

/-- ASCII bytes of a string literal, for stating expected code values. -/
def asciiBytes (s : String) : List Nat := s.data.map Char.toNat

/-- The RFC 4226 test secret, as in the repository test file. -/
def rfcSecret : List Nat := asciiBytes "12345678901234567890"

/-- The hash algorithms a session can actually hold: `CreateHotp` installs
SHA-1 and `SetHashFunc` only ever installs one of these three. -/
def SupportedAlg (alg : HashAlg) : Prop :=
  alg = sha1Alg ∨ alg = sha256Alg ∨ alg = sha512Alg

/-- The code string the implementation produces for a (secret, counter,
digits, algorithm) tuple: truncated value reduced modulo `10 ^ digits` and
zero-padded — the total-function form of `CalculateCode`. -/
def codeStr (secret : List Nat) (counter : Nat) (digits : Nat) (hasher : HashAlg) : List Nat :=
  formatCode (Int.ofNat (truncValue secret counter hasher % 10 ^ digits)) digits

/-- Modelled from the spec: the truncation offset as the spec describes it,
`offset = digest[L-1] & 0x0F` — the low 4 bits of the LAST byte of the digest
(`L` the digest length). Stated for comparison with `truncOffset`, which is
what the code computes. -/
def specLastByteOffset (secret : List Nat) (counter : Nat) (hasher : HashAlg) : Nat :=
  let digest := hmacBytes hasher secret (be64 (counter % 18446744073709551616))
  digest.getD (digest.length - 1) 0 &&& 0xf

/-- Numeric value of an ASCII decimal string (digit bytes, most significant
first). Used to state that a rendered code is the decimal rendering of its
value. -/
def strVal (s : List Nat) : Nat := s.foldl (fun a b => a * 10 + (b - 48)) 0

set_option maxRecDepth 100000
set_option maxHeartbeats 4000000
set_option synthInstance.maxSize 10000

/-! ### Helper lemmas: digest shapes -/

theorem beBytes_length (k : Nat) : ∀ n, (beBytes k n).length = k := by
  induction k with
  | zero => intro n; rfl
  | succ k ih => intro n; simp [beBytes, ih]

theorem wordsToBytes_length (k : Nat) (ws : List Nat) :
    (wordsToBytes k ws).length = k * ws.length := by
  induction ws with
  | nil => simp [wordsToBytes]
  | cons w ws ih => simp [wordsToBytes, ih, beBytes_length]; ring

theorem sha1Out_length (st : Nat × Nat × Nat × Nat × Nat) : (sha1Out st).length = 20 := by
  simp [sha1Out, wordsToBytes_length]

theorem sha2Out_length (k : Nat) (st : Sha2State) : (sha2Out k st).length = k * 8 := by
  simp [sha2Out, wordsToBytes_length]

theorem sha1_length (m : List Nat) : (sha1 m).length = 20 := sha1Out_length _

theorem sha256_length (m : List Nat) : (sha256 m).length = 32 := sha2Out_length 4 _

theorem sha512_length (m : List Nat) : (sha512 m).length = 64 := sha2Out_length 8 _

theorem hmacBytes_length (alg : HashAlg) (hsup : SupportedAlg alg) (key msg : List Nat) :
    (hmacBytes alg key msg).length = alg.outLen := by
  rcases hsup with h | h | h <;> subst h
  · exact sha1_length _
  · exact sha256_length _
  · exact sha512_length _

theorem outLen_ge_20 (alg : HashAlg) (hsup : SupportedAlg alg) : 20 ≤ alg.outLen := by
  rcases hsup with h | h | h <;> subst h <;> decide

/-! ### Helper lemmas: dynamic truncation -/

theorem truncOffset_le (secret : List Nat) (counter : Nat) (hasher : HashAlg) :
    truncOffset secret counter hasher ≤ 15 := Nat.and_le_right

theorem truncValue_lt (secret : List Nat) (counter : Nat) (hasher : HashAlg) :
    truncValue secret counter hasher < 2 ^ 31 := by
  simp only [truncValue]
  apply Nat.or_lt_two_pow
  apply Nat.or_lt_two_pow
  apply Nat.or_lt_two_pow
  · rw [Nat.shiftLeft_eq]
    calc _ ≤ 127 * 2 ^ 24 := Nat.mul_le_mul_right _ Nat.and_le_right
    _ < 2 ^ 31 := by norm_num
  · rw [Nat.shiftLeft_eq]
    calc _ ≤ 255 * 2 ^ 16 := Nat.mul_le_mul_right _ Nat.and_le_right
    _ < 2 ^ 31 := by norm_num
  · rw [Nat.shiftLeft_eq]
    calc _ ≤ 255 * 2 ^ 8 := Nat.mul_le_mul_right _ Nat.and_le_right
    _ < 2 ^ 31 := by norm_num
  · calc _ ≤ 255 := Nat.and_le_right
    _ < 2 ^ 31 := by norm_num

theorem dynamicTruncate_eq (secret : List Nat) (counter : Nat) (alg : HashAlg)
    (hsup : SupportedAlg alg) :
    dynamicTruncate secret counter alg = some (truncValue secret counter alg) := by
  have hlen := hmacBytes_length alg hsup secret (be64 (counter % 18446744073709551616))
  have h20 : 20 ≤ (hmacBytes alg secret (be64 (counter % 18446744073709551616))).length := by
    rw [hlen]; exact outLen_ge_20 alg hsup
  have hoff := truncOffset_le secret counter alg
  rw [dynamicTruncate, if_pos h20, if_neg (by omega), if_pos (by omega)]

theorem CalculateCode_eq (secret : List Nat) (counter digits : Nat) (alg : HashAlg)
    (hsup : SupportedAlg alg) :
    CalculateCode secret counter digits alg = some (codeStr secret counter digits alg) := by
  rw [CalculateCode, dynamicTruncate_eq secret counter alg hsup]; rfl

theorem pkgValidate_eq (secret : List Nat) (counter digits : Nat) (code : Int) (alg : HashAlg)
    (hsup : SupportedAlg alg) :
    pkgValidate secret counter digits code alg =
      some (decide (codeStr secret counter digits alg = formatCode code digits)) := by
  rw [pkgValidate, CalculateCode_eq secret counter digits alg hsup]; rfl

/-! ### Helper lemmas: decimal rendering -/

theorem decReprGo_spec : ∀ fuel n, n < fuel →
    n < 10 ^ (decReprGo fuel n).length ∧ 1 ≤ (decReprGo fuel n).length ∧
      (∀ d, 1 ≤ d → n < 10 ^ d → (decReprGo fuel n).length ≤ d) := by
  intro fuel
  induction fuel with
  | zero => intro n h; exact absurd h (Nat.not_lt_zero n)
  | succ f ih =>
    intro n hn
    by_cases h10 : n < 10
    · rw [decReprGo, if_pos h10]
      exact ⟨by simpa using h10, by simp, fun d hd _ => by simpa using hd⟩
    · rw [decReprGo, if_neg h10]
      have hdivlt : n / 10 < n := Nat.div_lt_self (by omega) (by omega)
      obtain ⟨ih1, ih2, ih3⟩ := ih (n / 10) (by omega)
      refine ⟨?_, ?_, ?_⟩
      · rw [List.length_append, List.length_singleton, pow_succ]
        calc n < (n / 10 + 1) * 10 := by have := Nat.div_add_mod n 10; omega
        _ ≤ 10 ^ (decReprGo f (n / 10)).length * 10 := Nat.mul_le_mul_right _ (by omega)
      · simp
      · intro d hd hnd
        rw [List.length_append, List.length_singleton]
        have hdd : 2 ≤ d := by
          by_contra hcon
          have hd1 : d = 1 := by omega
          subst hd1
          simp at hnd
          omega
        have hdivd : n / 10 < 10 ^ (d - 1) := by
          rw [Nat.div_lt_iff_lt_mul (by omega)]
          calc n < 10 ^ d := hnd
          _ = 10 ^ (d - 1) * 10 := by rw [← pow_succ]; congr 1; omega
        have := ih3 (d - 1) (by omega) hdivd
        omega

theorem decRepr_spec (n : Nat) :
    n < 10 ^ (decRepr n).length ∧ 1 ≤ (decRepr n).length ∧
      (∀ d, 1 ≤ d → n < 10 ^ d → (decRepr n).length ≤ d) :=
  decReprGo_spec (n + 1) n (Nat.lt_succ_self n)

theorem decReprGo_digits : ∀ fuel n, n < fuel →
    ∀ b ∈ decReprGo fuel n, 48 ≤ b ∧ b ≤ 57 := by
  intro fuel
  induction fuel with
  | zero => intro n h; exact absurd h (Nat.not_lt_zero n)
  | succ f ih =>
    intro n hn b hb
    by_cases h10 : n < 10
    · rw [decReprGo, if_pos h10] at hb
      rcases List.mem_singleton.mp hb with rfl
      simp [digitByte]; omega
    · rw [decReprGo, if_neg h10] at hb
      rcases List.mem_append.mp hb with h | h
      · exact ih (n / 10) (by omega) b h
      · rcases List.mem_singleton.mp h with rfl
        have : n % 10 < 10 := Nat.mod_lt n (by omega)
        simp [digitByte]; omega

theorem decReprGo_val : ∀ fuel n a, n < fuel →
    List.foldl (fun x b => x * 10 + (b - 48)) a (decReprGo fuel n) =
      a * 10 ^ (decReprGo fuel n).length + n := by
  intro fuel
  induction fuel with
  | zero => intro n _ h; exact absurd h (Nat.not_lt_zero n)
  | succ f ih =>
    intro n a hn
    by_cases h10 : n < 10
    · rw [decReprGo, if_pos h10]
      simp [digitByte]
    · rw [decReprGo, if_neg h10]
      have hdivlt : n / 10 < n := Nat.div_lt_self (by omega) (by omega)
      rw [List.foldl_append, ih (n / 10) a (by omega)]
      have hmod : n % 10 < 10 := Nat.mod_lt n (by omega)
      simp only [List.foldl_cons, List.foldl_nil, List.length_append, List.length_singleton,
        digitByte]
      have : 48 + n % 10 - 48 = n % 10 := by omega
      rw [this, pow_succ]
      have := Nat.div_add_mod n 10
      ring_nf
      omega

/-! ### Helper lemmas: code formatting -/

theorem zeroPad_length (w : Nat) (s : List Nat) : (zeroPad w s).length = max w s.length := by
  simp [zeroPad]
  omega

theorem zeroPad_mem (w : Nat) (s : List Nat) (b : Nat) (hb : b ∈ zeroPad w s) :
    b = 48 ∨ b ∈ s := by
  rcases List.mem_append.mp hb with h | h
  · exact Or.inl (List.eq_of_mem_replicate h)
  · exact Or.inr h

theorem formatCode_length (m d : Nat) (hd : 1 ≤ d) (hm : m < 10 ^ d) :
    (formatCode (Int.ofNat m) d).length = d := by
  rw [formatCode, if_neg (by simp), zeroPad_length]
  have := (decRepr_spec (Int.ofNat m).natAbs).2.2 d hd (by simpa using hm)
  omega

theorem formatCode_mem_digits (m d : Nat) (b : Nat) (hb : b ∈ formatCode (Int.ofNat m) d) :
    48 ≤ b ∧ b ≤ 57 := by
  rw [formatCode, if_neg (by simp)] at hb
  rcases zeroPad_mem _ _ _ hb with rfl | h
  · omega
  · exact decReprGo_digits _ _ (Nat.lt_succ_self _) b h

theorem formatCode_val (m d : Nat) : strVal (formatCode (Int.ofNat m) d) = m := by
  rw [formatCode, if_neg (by simp), strVal, zeroPad]
  rw [List.foldl_append]
  have hrep : ∀ k, List.foldl (fun a b => a * 10 + (b - 48)) 0 (List.replicate k 48) = 0 := by
    intro k
    induction k with
    | zero => rfl
    | succ k ih => simpa [List.replicate_succ] using ih
  rw [hrep]
  have := decReprGo_val ((Int.ofNat m).natAbs + 1) (Int.ofNat m).natAbs 0 (Nat.lt_succ_self _)
  simpa [decRepr] using this

theorem formatCode_length_of_big (c : Int) (d : Nat) (hc : (10 : Int) ^ d ≤ c) :
    d < (formatCode c d).length := by
  have hpow : (0 : Int) < 10 ^ d := by positivity
  have hcast : (((10 : Nat) ^ d : Nat) : Int) = (10 : Int) ^ d := by push_cast; rfl
  have hcabs : 10 ^ d ≤ c.natAbs := by omega
  rw [formatCode, if_neg (by omega), zeroPad_length]
  have h1 := (decRepr_spec c.natAbs).1
  have hlt : d < (decRepr c.natAbs).length := by
    by_contra hcon
    have : (10 : Nat) ^ (decRepr c.natAbs).length ≤ 10 ^ d :=
      Nat.pow_le_pow_right (by omega) (by omega)
    omega
  omega

theorem formatCode_ne_of_big (c : Int) (m d : Nat) (hd : 1 ≤ d) (hm : m < 10 ^ d)
    (hc : (10 : Int) ^ d ≤ c) : formatCode c d ≠ formatCode (Int.ofNat m) d := by
  intro heq
  have h1 := formatCode_length m d hd hm
  have h2 := formatCode_length_of_big c d hc
  rw [heq] at h2
  omega

theorem formatCode_ne_of_neg (c : Int) (m d : Nat) (hc : c < 0) :
    formatCode c d ≠ formatCode (Int.ofNat m) d := by
  intro heq
  have h45 : (45 : Nat) ∈ formatCode c d := by
    rw [formatCode, if_pos hc]
    exact List.mem_cons_self _ _
  rw [heq] at h45
  have := formatCode_mem_digits m d 45 h45
  omega

/-! ### Helper lemmas: the look-ahead loop -/

theorem uint64OfInt_small (w : Int) (h0 : 0 ≤ w) (h1 : w < 18446744073709551616) :
    uint64OfInt w = w.toNat := by
  rw [uint64OfInt, Int.emod_eq_of_lt h0 h1]

theorem validateScan_none (secret : List Nat) (digits : Nat) (code : Int) (alg : HashAlg)
    (counter : Nat) (hsup : SupportedAlg alg) :
    ∀ r i0, (∀ i, i0 ≤ i → i < i0 + r →
        codeStr secret ((counter + i) % 18446744073709551616) digits alg ≠
          formatCode code digits) →
      validateScan secret digits code alg counter i0 r = some none := by
  intro r
  induction r with
  | zero => intro i0 _; rfl
  | succ r ih =>
    intro i0 H
    rw [validateScan, pkgValidate_eq _ _ _ _ _ hsup,
      decide_eq_false (H i0 (le_refl i0) (by omega))]
    exact ih (i0 + 1) fun i hi1 hi2 => H i (by omega) (by omega)

theorem validateScan_finds (secret : List Nat) (digits : Nat) (code : Int) (alg : HashAlg)
    (counter : Nat) (hsup : SupportedAlg alg) :
    ∀ r i0 j, i0 ≤ j → j < i0 + r →
      codeStr secret ((counter + j) % 18446744073709551616) digits alg =
        formatCode code digits →
      (∀ i, i0 ≤ i → i < j →
        codeStr secret ((counter + i) % 18446744073709551616) digits alg ≠
          formatCode code digits) →
      validateScan secret digits code alg counter i0 r = some (some j) := by
  intro r
  induction r with
  | zero => intro i0 j h1 h2 _ _; exact absurd h2 (by omega)
  | succ r ih =>
    intro i0 j h1 h2 hj hbef
    by_cases hij : i0 = j
    · subst hij
      rw [validateScan, pkgValidate_eq _ _ _ _ _ hsup, decide_eq_true hj]
    · rw [validateScan, pkgValidate_eq _ _ _ _ _ hsup,
        decide_eq_false (hbef i0 (le_refl i0) (by omega))]
      exact ih (i0 + 1) j (by omega) (by omega) hj fun i a b => hbef i (by omega) b

/-! ### Claims -/

/-- C1 counterexample: the claim says the truncation offset is the low 4 bits
of the LAST digest byte for all three algorithms alike; for SHA-256 at the RFC
test secret and counter 0 the code extracts offset 11 from byte index 19 while
the last byte gives 9, so the claim is false as stated. -/
theorem c1_counterexample :
    truncOffset rfcSecret 0 sha256Alg ≠ specLastByteOffset rfcSecret 0 sha256Alg := by
  decide

/-- C1 amended: for every secret, counter and supported algorithm the code
extracts the offset as the low 4 bits of digest byte INDEX 19 (`hash[19] & 0xf`);
this coincides with the spec's last-byte rule exactly for SHA-1, whose digest
length is 20. -/
theorem c1_theorem (s : List Nat) (c : Nat) (alg : HashAlg) (hsup : SupportedAlg alg) :
    truncOffset s c alg =
      (hmacBytes alg s (be64 (c % 18446744073709551616))).getD 19 0 &&& 0xf ∧
      (alg = sha1Alg → truncOffset s c alg = specLastByteOffset s c alg) := by
  have htake : ∀ l : List Nat, (l.take 20).getD 19 0 = l.getD 19 0 := by
    intro l
    rw [List.getD_eq_getElem?_getD, List.getD_eq_getElem?_getD,
      List.getElem?_take_of_lt (by omega)]
  refine ⟨by rw [truncOffset, htake], fun halg => ?_⟩
  subst halg
  have hlen := hmacBytes_length sha1Alg (Or.inl rfl) s (be64 (c % 18446744073709551616))
  simp only [truncOffset, specLastByteOffset]
  rw [htake, hlen]
  rfl

/-- C1 witness: for SHA-1 the code's offset does equal the spec's last-byte
offset, instantiated at the RFC test secret and counter 0. -/
theorem c1_witness : truncOffset rfcSecret 0 sha1Alg = specLastByteOffset rfcSecret 0 sha1Alg :=
  (c1_theorem rfcSecret 0 sha1Alg (Or.inl rfl)).2 rfl

/-- C6 counterexample: the claim says `SetLookAheadWindow` fails for every
`n < 0`; the code has no lower-bound check, so `-1` is accepted and stored. -/
theorem c6_counterexample :
    SetLookAheadWindow (CreateHotp rfcSecret 0 6) (-1) =
      .ok { CreateHotp rfcSecret 0 6 with lookAheadWindow := -1 } := rfl

/-- C6 amended: `SetLookAheadWindow` fails with the configuration error for
every `n > 10` and succeeds for every `n ≤ 10` — negative sizes included —
storing the window and leaving every other field (the counter in particular)
unchanged. -/
theorem c6_theorem (h : Hotp) (n : Int) :
    (10 < n → SetLookAheadWindow h n =
      .error "size cannot be greater than 10 for look ahead window") ∧
      (n ≤ 10 → SetLookAheadWindow h n = .ok { h with lookAheadWindow := n }) := by
  constructor
  · intro hn
    rw [SetLookAheadWindow, if_pos (show maxLookAheadSize < n by rw [maxLookAheadSize]; omega)]
  · intro hn
    rw [SetLookAheadWindow, if_neg (by rw [maxLookAheadSize]; omega)]

/-- C6 witness: `SetLookAheadWindow 11` fails and `SetLookAheadWindow 10`
succeeds on a concrete session. -/
theorem c6_witness :
    SetLookAheadWindow (CreateHotp rfcSecret 0 6) 11 =
      .error "size cannot be greater than 10 for look ahead window" ∧
      SetLookAheadWindow (CreateHotp rfcSecret 0 6) 10 =
        .ok { CreateHotp rfcSecret 0 6 with lookAheadWindow := 10 } :=
  ⟨(c6_theorem (CreateHotp rfcSecret 0 6) 11).1 (by omega),
    (c6_theorem (CreateHotp rfcSecret 0 6) 10).2 (by omega)⟩

/-- C8: truncation is total for every secret, counter and supported algorithm:
the offset lies in `[0, 15]`, `offset + 4` never exceeds the digest length, so
the panic branch and the slice bounds are never hit (`dynamicTruncate` returns
a value rather than a fault), and the value is at most `2 ^ 31 - 1`. -/
theorem c8_theorem (s : List Nat) (c : Nat) (alg : HashAlg) (hsup : SupportedAlg alg) :
    truncOffset s c alg ≤ 15 ∧
      truncOffset s c alg + 4 ≤ (hmacBytes alg s (be64 (c % 18446744073709551616))).length ∧
      dynamicTruncate s c alg = some (truncValue s c alg) ∧
      truncValue s c alg ≤ 2 ^ 31 - 1 := by
  have h1 := truncOffset_le s c alg
  have h2 := hmacBytes_length alg hsup s (be64 (c % 18446744073709551616))
  have h3 := outLen_ge_20 alg hsup
  have h4 := truncValue_lt s c alg
  exact ⟨h1, by omega, dynamicTruncate_eq s c alg hsup, by omega⟩

/-- C8 witness: instantiated at the RFC test secret, counter 0, SHA-1. -/
theorem c8_witness :
    truncOffset rfcSecret 0 sha1Alg ≤ 15 ∧
      truncOffset rfcSecret 0 sha1Alg + 4 ≤
        (hmacBytes sha1Alg rfcSecret (be64 (0 % 18446744073709551616))).length ∧
      dynamicTruncate rfcSecret 0 sha1Alg = some (truncValue rfcSecret 0 sha1Alg) ∧
      truncValue rfcSecret 0 sha1Alg ≤ 2 ^ 31 - 1 :=
  c8_theorem rfcSecret 0 sha1Alg (Or.inl rfl)

/-- C9: `SetHashFunc` accepts exactly the identifiers of the closed set
{"sha1", "sha256", "sha512"}, updating the identifier and the keyed-hash
constructor together (the result pins both fields to the matching pair, all
other fields unchanged), and fails with the unsupported-algorithm error for
every other identifier. -/
theorem c9_theorem (h : Hotp) (s : String) :
    (s = "sha1" → SetHashFunc h s = .ok { h with hashFunc := "sha1", hasher := sha1Alg }) ∧
      (s = "sha256" →
        SetHashFunc h s = .ok { h with hashFunc := "sha256", hasher := sha256Alg }) ∧
      (s = "sha512" →
        SetHashFunc h s = .ok { h with hashFunc := "sha512", hasher := sha512Alg }) ∧
      (s ≠ "sha1" → s ≠ "sha256" → s ≠ "sha512" →
        SetHashFunc h s = .error "hashing function not implemtented") := by
  refine ⟨fun h1 => ?_, fun h2 => ?_, fun h3 => ?_, fun n1 n2 n3 => ?_⟩
  · rw [SetHashFunc, if_pos h1]
  · rw [SetHashFunc, if_neg (by rw [h2]; decide), if_pos h2]
  · rw [SetHashFunc, if_neg (by rw [h3]; decide), if_neg (by rw [h3]; decide), if_pos h3]
  · rw [SetHashFunc, if_neg n1, if_neg n2, if_neg n3]

/-- C9 witness: "md5" is rejected and "sha256" swaps both fields, on a
concrete session. -/
theorem c9_witness :
    SetHashFunc (CreateHotp rfcSecret 0 6) "md5" = .error "hashing function not implemtented" ∧
      SetHashFunc (CreateHotp rfcSecret 0 6) "sha256" =
        .ok { CreateHotp rfcSecret 0 6 with hashFunc := "sha256", hasher := sha256Alg } :=
  ⟨(c9_theorem (CreateHotp rfcSecret 0 6) "md5").2.2.2 (by decide) (by decide) (by decide),
    (c9_theorem (CreateHotp rfcSecret 0 6) "sha256").2.1 rfl⟩

/-- C4: on a direct match (`validate(calculate())`) at counter `c` with window
0, the result is true and the counter advances to exactly `c + 1`. Digits are
restricted to the valid range 1–9 (the embedding of `math.Pow10` is exact
there) and the counter must not wrap. -/
theorem c4_theorem (h : Hotp) (hsup : SupportedAlg h.hasher) (hw : h.lookAheadWindow = 0)
    (hd1 : 1 ≤ h.digits) (hd9 : h.digits ≤ 9) (hcnt : h.counter + 1 < 18446744073709551616) :
    Hotp.Validate h (Int.ofNat (truncValue h.secret h.counter h.hasher % 10 ^ h.digits)) =
      some (true, { h with counter := h.counter + 1 }) := by
  have hEq : codeStr h.secret h.counter h.digits h.hasher =
      formatCode (Int.ofNat (truncValue h.secret h.counter h.hasher % 10 ^ h.digits)) h.digits :=
    rfl
  rw [Hotp.Validate, pkgValidate_eq _ _ _ _ _ hsup, decide_eq_true hEq]
  simp only [IncrementCounter]
  rw [Nat.mod_eq_of_lt hcnt]

/-- C4 witness: the RFC test session at counter 0 with 6 digits validates its
own code and lands on counter 1. -/
theorem c4_witness :
    Hotp.Validate (CreateHotp rfcSecret 0 6)
        (Int.ofNat (truncValue rfcSecret 0 sha1Alg % 10 ^ 6)) =
      some (true, { CreateHotp rfcSecret 0 6 with counter := 1 }) :=
  c4_theorem (CreateHotp rfcSecret 0 6) (Or.inl rfl) rfl (by decide) (by decide) (by decide)

/-- C5: if the submitted code matches no candidate counter in the window
(current counter plus `0 .. uint64(lookAheadWindow)`), `Validate` returns
false and the session — every field — is returned unchanged. -/
theorem c5_theorem (h : Hotp) (code : Int) (hsup : SupportedAlg h.hasher)
    (hcnt : h.counter < 18446744073709551616)
    (hw0 : 0 ≤ h.lookAheadWindow) (hw10 : h.lookAheadWindow ≤ 10)
    (H : ∀ i : Nat, i ≤ h.lookAheadWindow.toNat →
      codeStr h.secret ((h.counter + i) % 18446744073709551616) h.digits h.hasher ≠
        formatCode code h.digits) :
    Hotp.Validate h code = some (false, h) := by
  have hdir : codeStr h.secret h.counter h.digits h.hasher ≠ formatCode code h.digits := by
    have := H 0 (by omega)
    rwa [Nat.add_zero, Nat.mod_eq_of_lt hcnt] at this
  rw [Hotp.Validate, pkgValidate_eq _ _ _ _ _ hsup, decide_eq_false hdir]
  by_cases hw : h.lookAheadWindow = 0
  · rw [if_pos hw]
  · rw [if_neg hw, uint64OfInt_small _ hw0 (by omega),
      validateScan_none _ _ _ _ _ hsup _ 1 fun i hi1 hi2 => H i (by omega)]

/-- C5 witness: submitting 0 against the RFC session (6 digits, window 2,
counters 0–2 give 755224, 287082, 359152) fails and leaves the session as is. -/
theorem c5_witness :
    Hotp.Validate { CreateHotp rfcSecret 0 6 with lookAheadWindow := 2 } 0 =
      some (false, { CreateHotp rfcSecret 0 6 with lookAheadWindow := 2 }) :=
  c5_theorem { CreateHotp rfcSecret 0 6 with lookAheadWindow := 2 } 0 (Or.inl rfl)
    (by decide) (by decide) (by decide)
    (by decide)

/-- C3 counterexample: with the RFC secret, 1 digit, counter 0 and window 2,
the code for counter 2 ("2") also matches candidate counter 1 ("2"), so the
scan stops early: the call returns true but the counter lands on 1, not on
`c + k = 2` as the claim requires. -/
theorem c3_counterexample :
    Hotp.Validate { CreateHotp rfcSecret 0 1 with lookAheadWindow := 2 }
        (Int.ofNat (truncValue rfcSecret 2 sha1Alg % 10 ^ 1)) =
      some (true, { CreateHotp rfcSecret 0 1 with lookAheadWindow := 2, counter := 1 }) ∧
      (1 : Nat) ≠ 2 := ⟨rfl, by decide⟩

/-- C3 amended: submitting the code computed for counter `c + k`
(`1 ≤ k ≤ window`) returns true and lands the counter exactly on `c + k`
(not `c + k + 1`), PROVIDED no earlier candidate `c + j` (`0 ≤ j < k`,
including the direct match at `j = 0`) happens to share the same code — the
scan probes `c + 1 .. c + window` ascending and stops at the first match. -/
theorem c3_theorem (h : Hotp) (k : Nat) (hsup : SupportedAlg h.hasher)
    (hk1 : 1 ≤ k) (hkw : (k : Int) ≤ h.lookAheadWindow) (hw10 : h.lookAheadWindow ≤ 10)
    (hcnt : h.counter + k < 18446744073709551616)
    (hfresh : ∀ j : Nat, j < k →
      codeStr h.secret (h.counter + j) h.digits h.hasher ≠
        codeStr h.secret (h.counter + k) h.digits h.hasher) :
    Hotp.Validate h (Int.ofNat (truncValue h.secret (h.counter + k) h.hasher % 10 ^ h.digits)) =
      some (true, { h with counter := h.counter + k }) := by
  have hw0 : (0 : Int) ≤ h.lookAheadWindow := by omega
  have hfmt : formatCode
      (Int.ofNat (truncValue h.secret (h.counter + k) h.hasher % 10 ^ h.digits)) h.digits =
      codeStr h.secret (h.counter + k) h.digits h.hasher := rfl
  have hdir : codeStr h.secret h.counter h.digits h.hasher ≠
      formatCode (Int.ofNat (truncValue h.secret (h.counter + k) h.hasher % 10 ^ h.digits))
        h.digits := by
    rw [hfmt]
    have := hfresh 0 (by omega)
    rwa [Nat.add_zero] at this
  rw [Hotp.Validate, pkgValidate_eq _ _ _ _ _ hsup, decide_eq_false hdir,
    if_neg (by omega), uint64OfInt_small _ hw0 (by omega),
    validateScan_finds _ _ _ _ _ hsup _ 1 k hk1 (by omega)
      (by rw [Nat.mod_eq_of_lt hcnt, hfmt])
      fun i hi1 hi2 => by
        rw [Nat.mod_eq_of_lt (by omega), hfmt]
        exact hfresh i (by omega)]
  show some (true, { h with counter := (h.counter + k) % 18446744073709551616 }) =
    some (true, { h with counter := h.counter + k })
  rw [Nat.mod_eq_of_lt hcnt]

/-- C3 witness: RFC session, 8 digits, counter 0, window 3, code for counter
2 ("37359152", distinct from the codes at counters 0 and 1): validation
succeeds and the counter lands exactly on 2. -/
theorem c3_witness :
    Hotp.Validate { CreateHotp rfcSecret 0 8 with lookAheadWindow := 3 }
        (Int.ofNat (truncValue rfcSecret 2 sha1Alg % 10 ^ 8)) =
      some (true, { CreateHotp rfcSecret 0 8 with lookAheadWindow := 3, counter := 2 }) :=
  c3_theorem { CreateHotp rfcSecret 0 8 with lookAheadWindow := 3 } 2 (Or.inl rfl)
    (by decide) (by decide) (by decide) (by decide)
    (by decide)

/-- C10: submitting an integer whose value is negative or at least
`10 ^ digits` can never validate: its zero-padded rendering has a sign
character or more than `digits` characters while every expected code has
exactly `digits` digit characters, so `Validate` returns false with the
session unchanged — for any window, including the degenerate negative ones. -/
theorem c10_theorem (h : Hotp) (code : Int) (hsup : SupportedAlg h.hasher)
    (hd1 : 1 ≤ h.digits) (hd9 : h.digits ≤ 9)
    (hbad : code < 0 ∨ (10 : Int) ^ h.digits ≤ code) :
    Hotp.Validate h code = some (false, h) := by
  have H : ∀ c' : Nat, codeStr h.secret c' h.digits h.hasher ≠ formatCode code h.digits := by
    intro c'
    have hm : truncValue h.secret c' h.hasher % 10 ^ h.digits < 10 ^ h.digits :=
      Nat.mod_lt _ (by positivity)
    rcases hbad with hneg | hbig
    · exact (formatCode_ne_of_neg code _ h.digits hneg).symm
    · exact (formatCode_ne_of_big code _ h.digits hd1 hm hbig).symm
  rw [Hotp.Validate, pkgValidate_eq _ _ _ _ _ hsup, decide_eq_false (H h.counter)]
  by_cases hw : h.lookAheadWindow = 0
  · rw [if_pos hw]
  · rw [if_neg hw, validateScan_none _ _ _ _ _ hsup _ 1 fun i hi1 hi2 => H _]

/-- C10 witness: the RFC session with 6 digits rejects 1000000 (7 characters)
and -1 (sign character) without advancing. -/
theorem c10_witness :
    Hotp.Validate (CreateHotp rfcSecret 0 6) 1000000 =
      some (false, CreateHotp rfcSecret 0 6) ∧
      Hotp.Validate (CreateHotp rfcSecret 0 6) (-1) =
        some (false, CreateHotp rfcSecret 0 6) :=
  ⟨c10_theorem (CreateHotp rfcSecret 0 6) 1000000 (Or.inl rfl) (by decide) (by decide)
      (Or.inr (by decide)),
    c10_theorem (CreateHotp rfcSecret 0 6) (-1) (Or.inl rfl) (by decide) (by decide)
      (Or.inl (by decide))⟩

/-- C2: RFC 4226 test-vector conformance for the secret
"12345678901234567890" with SHA-1, counters 0-9: the 8-digit codes equal the
canonical vectors, and the 7- and 6-digit codes equal their low-order 7 and 6
characters, preserving leading zeros (counter 4 at 7 digits is "0338314"). -/
theorem c2_theorem :
    CalculateCode rfcSecret 0 8 sha1Alg = some (asciiBytes "84755224") ∧
    CalculateCode rfcSecret 1 8 sha1Alg = some (asciiBytes "94287082") ∧
    CalculateCode rfcSecret 2 8 sha1Alg = some (asciiBytes "37359152") ∧
    CalculateCode rfcSecret 3 8 sha1Alg = some (asciiBytes "26969429") ∧
    CalculateCode rfcSecret 4 8 sha1Alg = some (asciiBytes "40338314") ∧
    CalculateCode rfcSecret 5 8 sha1Alg = some (asciiBytes "68254676") ∧
    CalculateCode rfcSecret 6 8 sha1Alg = some (asciiBytes "18287922") ∧
    CalculateCode rfcSecret 7 8 sha1Alg = some (asciiBytes "82162583") ∧
    CalculateCode rfcSecret 8 8 sha1Alg = some (asciiBytes "73399871") ∧
    CalculateCode rfcSecret 9 8 sha1Alg = some (asciiBytes "45520489") ∧
    CalculateCode rfcSecret 0 7 sha1Alg = some (asciiBytes "4755224") ∧
    CalculateCode rfcSecret 1 7 sha1Alg = some (asciiBytes "4287082") ∧
    CalculateCode rfcSecret 2 7 sha1Alg = some (asciiBytes "7359152") ∧
    CalculateCode rfcSecret 3 7 sha1Alg = some (asciiBytes "6969429") ∧
    CalculateCode rfcSecret 4 7 sha1Alg = some (asciiBytes "0338314") ∧
    CalculateCode rfcSecret 5 7 sha1Alg = some (asciiBytes "8254676") ∧
    CalculateCode rfcSecret 6 7 sha1Alg = some (asciiBytes "8287922") ∧
    CalculateCode rfcSecret 7 7 sha1Alg = some (asciiBytes "2162583") ∧
    CalculateCode rfcSecret 8 7 sha1Alg = some (asciiBytes "3399871") ∧
    CalculateCode rfcSecret 9 7 sha1Alg = some (asciiBytes "5520489") ∧
    CalculateCode rfcSecret 0 6 sha1Alg = some (asciiBytes "755224") ∧
    CalculateCode rfcSecret 1 6 sha1Alg = some (asciiBytes "287082") ∧
    CalculateCode rfcSecret 2 6 sha1Alg = some (asciiBytes "359152") ∧
    CalculateCode rfcSecret 3 6 sha1Alg = some (asciiBytes "969429") ∧
    CalculateCode rfcSecret 4 6 sha1Alg = some (asciiBytes "338314") ∧
    CalculateCode rfcSecret 5 6 sha1Alg = some (asciiBytes "254676") ∧
    CalculateCode rfcSecret 6 6 sha1Alg = some (asciiBytes "287922") ∧
    CalculateCode rfcSecret 7 6 sha1Alg = some (asciiBytes "162583") ∧
    CalculateCode rfcSecret 8 6 sha1Alg = some (asciiBytes "399871") ∧
    CalculateCode rfcSecret 9 6 sha1Alg = some (asciiBytes "520489") := by
  decide

/-- C7: the code formatter (the modulo reduction of `CalculateCode` composed
with `formatCode`) renders `v mod 10 ^ digits` as a string of exactly `digits`
ASCII decimal digits whose value is `v mod 10 ^ digits` — i.e. the decimal
rendering left-zero-padded to exactly `digits` characters. -/
theorem c7_theorem (v d : Nat) (hd : 1 ≤ d) :
    (formatCode (Int.ofNat (v % 10 ^ d)) d).length = d ∧
      strVal (formatCode (Int.ofNat (v % 10 ^ d)) d) = v % 10 ^ d ∧
      ∀ b ∈ formatCode (Int.ofNat (v % 10 ^ d)) d, 48 ≤ b ∧ b ≤ 57 := by
  have hm : v % 10 ^ d < 10 ^ d := Nat.mod_lt _ (by positivity)
  exact ⟨formatCode_length _ d hd hm, formatCode_val _ d,
    fun b hb => formatCode_mem_digits _ d b hb⟩

/-- C7 witness: `format(82, 6) = "000082"` and
`format(1234567 mod 10 ^ 6, 6) = "234567"`. -/
theorem c7_witness :
    (formatCode (Int.ofNat (82 % 10 ^ 6)) 6).length = 6 ∧
      formatCode (Int.ofNat 82) 6 = asciiBytes "000082" ∧
      formatCode (Int.ofNat (1234567 % 10 ^ 6)) 6 = asciiBytes "234567" :=
  ⟨(c7_theorem 82 6 (by decide)).1, by decide, by decide⟩
